import Mathlib

/-!
Verification of the streaming tool-orchestration engine of `src/api/main.py`
(gamedev-king backend): a shallow embedding of its pure data manipulations and
of the chat-stream round loop, together with theorems settling the frozen
claims about the trigger heuristics, the bounded history, tool-call fragment
accumulation, the allow-list round logic, error containment and the terminal
`done` event.

External collaborators (the OpenAI provider stream, the `run_*_tool`
executors, `re.search`/`json.loads` inside `_extract_tool_args`) are modelled
as oracles: functions supplied as parameters, quantified over in the theorems.
Everything else is translated from the source.
-/

namespace GamedevKing

/-! ## Python string primitives

`str.strip` / `str.lower` / substring containment / `str.replace`, modelled on
`String.data` (`List Char`).  `lower` is modelled for the ASCII range (the
constants compared against in the source are all ASCII). -/

/-- Whitespace as recognised by Python `str.strip()` (ASCII range). -/
def pyIsSpace (c : Char) : Bool :=
  c = ' ' || c = '\t' || c = '\n' || c = '\r' || c = '\x0b' || c = '\x0c'

/-- Python `s.strip()`: drop leading and trailing whitespace. -/
def pyStrip (s : String) : String :=
  String.mk (((s.data.dropWhile pyIsSpace).reverse.dropWhile pyIsSpace).reverse)

/-- Python `s.lower()` (ASCII letters). -/
def pyLower (s : String) : String :=
  String.mk (s.data.map Char.toLower)

/-- Substring test on character lists: `needle` occurs contiguously in the list. -/
def containsSub : List Char → List Char → Bool
  | needle, [] => needle.isEmpty
  | needle, c :: rest => needle.isPrefixOf (c :: rest) || containsSub needle rest

/-- Python `needle in hay` for strings. -/
def strContains (hay needle : String) : Bool :=
  containsSub needle.data hay.data

/-- One left-to-right non-overlapping replacement pass, fuelled by the length
of the haystack (the pattern is nonempty whenever this is used). -/
def replaceFuel (pat repl : List Char) : Nat → List Char → List Char
  | 0, hay => hay
  | _ + 1, [] => []
  | fuel + 1, c :: rest =>
      if pat.isPrefixOf (c :: rest) then
        repl ++ replaceFuel pat repl fuel ((c :: rest).drop pat.length)
      else
        c :: replaceFuel pat repl fuel rest

/-- Python `s.replace(pat, repl)` for a nonempty pattern (the only use in the
source is `tool_name.replace("_image", "")`). -/
def pyReplace (s pat repl : String) : String :=
  if pat = "" then s else String.mk (replaceFuel pat.data repl.data s.data.length s.data)

/-! ## Heuristic tool trigger (`main.py` lines 90-125) -/

/-- `_TOOL_TRIGGER_PHRASES` (lines 90-98), transcribed verbatim. -/
def TOOL_TRIGGER_PHRASES : List String :=
  ["export", "save to pdf", "save as pdf", "save to docx", "save as docx",
   "export to pdf", "export to docx", "export as pdf", "export as docx",
   "google doc", "google docs",
   "generate image", "generate a image", "create image", "create a image",
   "draw ", "draw a", "picture of", "image of", "generate a picture",
   "resize image", "crop image", "convert image", "resize the image",
   "make a pdf", "make a docx", "write to pdf", "write to docx"]

/-- `_user_might_need_tools` (lines 101-106): empty / whitespace-only input is
rejected, after which the stripped lower-cased message is searched for each
trigger phrase. -/
def userMightNeedTools (userMessage : String) : Bool :=
  if userMessage = "" || pyStrip userMessage = "" then false
  else TOOL_TRIGGER_PHRASES.any fun phrase => strContains (pyLower (pyStrip userMessage)) phrase

/-- Modelled from the spec's words, for comparison with the source function:
"true iff the lower-cased utterance contains one of the fixed trigger
phrases" — lower-casing only, no trimming. -/
def mightNeedToolsSpec (userMessage : String) : Bool :=
  TOOL_TRIGGER_PHRASES.any fun phrase => strContains (pyLower userMessage) phrase

/-- `_choose_tool_name` (lines 109-125): priority-ordered keyword checks on the
stripped lower-cased message. -/
def chooseToolName (userMessage : String) : Option String :=
  if userMessage = "" then none
  else
    let lower := pyLower (pyStrip userMessage)
    if strContains lower "resize" then some "resize_image"
    else if strContains lower "crop" then some "crop_image"
    else if strContains lower "convert" then some "convert_image"
    else if strContains lower "docx" || strContains lower "word" then some "export_docx"
    else if strContains lower "pdf" then some "export_pdf"
    else if strContains lower "image" || strContains lower "draw" || strContains lower "picture" then some "generate_image"
    else none

/-! ## Agent identity and history paths (`main.py` lines 77-87, 158-168) -/

/-- The keys of `AGENT_PERSONA_FILES` (lines 77-81). -/
def AGENT_IDS : List String :=
  ["creative_director", "art_director", "technical_director"]

/-- The cleanup pipeline of `normalize_agent_id` (line 161):
`strip().lower().replace("-", "_").replace(" ", "_")`.  The two sequential
single-character replacements commute into one pass because the first neither
produces nor consumes spaces. -/
def cleanAgentId (s : String) : String :=
  String.mk ((pyLower (pyStrip s)).data.map fun c => if c = '-' || c = ' ' then '_' else c)

/-- `normalize_agent_id` (lines 158-162).  `None` and `""` are both falsy in
Python's `if not agent_id`. -/
def normalize_agent_id : Option String → String
  | none => "creative_director"
  | some s =>
      if s = "" then "creative_director"
      else if cleanAgentId s ∈ AGENT_IDS then cleanAgentId s else "creative_director"

def HISTORY_PREFIX : String := "feed_"

/-- `LOCAL_DATA_DIR` (line 84) rendered as a path string; a fixed constant of
the process. -/
def LOCAL_DATA_DIR : String := ".local_data"

/-- `get_history_path` (lines 165-168), as the path string
`LOCAL_DATA_DIR / "history" / f"feed_{safe_agent}.json"`. -/
def get_history_path (agentId : String) : String :=
  LOCAL_DATA_DIR ++ "/history/" ++ HISTORY_PREFIX ++ normalize_agent_id (some agentId) ++ ".json"

/-- The key under which the generator reads and writes `AGENT_HISTORIES`
(lines 293 and 398): the normalized agent id. -/
def historyKey (agent : Option String) : String := normalize_agent_id agent

/-! ## Bounded history store (`main.py` lines 82-87, 217-242, 396-399, 483-484) -/

structure ChatMessage where
  role : String
  content : String
deriving DecidableEq, Repr

def MAX_HISTORY_ITEMS : Nat := 200

/-- `history.append(...)` on an `AGENT_HISTORIES` entry (lines 399 and 484):
a plain list append, with no eviction of any kind. -/
def historyAppend (history : List ChatMessage) (m : ChatMessage) : List ChatMessage :=
  history ++ [m]

/-- A sequence of user/assistant appends to one agent's in-memory history. -/
def historyAppendMany (history : List ChatMessage) (ms : List ChatMessage) : List ChatMessage :=
  ms.foldl historyAppend history

/-- The truncation performed by the `POST /chat/history/{agent_id}` endpoint
(line 236): `body.messages[-MAX_HISTORY_ITEMS:]`, keeping the last entries. -/
def saveHistoryMessages (msgs : List ChatMessage) : List ChatMessage :=
  msgs.drop (msgs.length - MAX_HISTORY_ITEMS)

/-- The truncation performed by the `GET /chat/history/{agent_id}` endpoint
(line 227): `messages[:MAX_HISTORY_ITEMS]`, keeping the first entries. -/
def readHistoryMessages (msgs : List ChatMessage) : List ChatMessage :=
  msgs.take MAX_HISTORY_ITEMS

/-! ## Streamed tool-call fragment accumulation (`main.py` lines 453-480) -/

/-- Python truthiness of an optional string field: present and nonempty. -/
def strTruthy : Option String → Bool
  | none => false
  | some s => s ≠ ""

/-- The `function` part of a streamed tool-call delta (`tool_call.function`),
which may itself be absent. -/
structure FunctionFragment where
  name : Option String
  arguments : Option String
deriving DecidableEq, Repr

/-- One element of `delta.tool_calls`: a slot index plus optional partial data. -/
structure ToolCallFragment where
  index : Nat
  id : Option String
  function : Option FunctionFragment
deriving DecidableEq, Repr

/-- An accumulated entry of `tool_call_map` (the dict built at lines 466-472):
`{"id": ..., "type": "function", "function": {"name": ..., "arguments": ...}}`
— the constant `"type"` field is omitted. -/
structure PendingToolCall where
  id : Option String
  name : String
  arguments : String
deriving DecidableEq, Repr

/-- The `setdefault` default entry (lines 468-472): id taken from the creating
fragment, name and arguments initialised empty. -/
def initEntry (tc : ToolCallFragment) : PendingToolCall :=
  { id := tc.id, name := "", arguments := "" }

/-- The in-place mutations applied to an entry for one fragment
(lines 474-479): id is filled only if truthy-absent so far; name is assigned
whenever the fragment carries a truthy name; arguments are concatenated. -/
def updateEntry (e : PendingToolCall) (tc : ToolCallFragment) : PendingToolCall :=
  let e1 := if strTruthy tc.id && !strTruthy e.id then { e with id := tc.id } else e
  match tc.function with
  | none => e1
  | some f =>
      let e2 := if strTruthy f.name then { e1 with name := f.name.getD "" } else e1
      if strTruthy f.arguments then { e2 with arguments := e2.arguments ++ f.arguments.getD "" } else e2

/-- Replace the value stored at key `i` of an association list (models the
in-place mutation of the dict entry obtained by `setdefault`). -/
def setSlot : List (Nat × PendingToolCall) → Nat → PendingToolCall → List (Nat × PendingToolCall)
  | [], i, e => [(i, e)]
  | (j, x) :: rest, i, e =>
      if i = j then (j, e) :: rest else (j, x) :: setSlot rest i e

/-- Processing of one fragment against `tool_call_map` (lines 464-479):
`entry = tool_call_map.setdefault(index, default)` followed by the guarded
mutations. -/
def processFragment (m : List (Nat × PendingToolCall)) (tc : ToolCallFragment) :
    List (Nat × PendingToolCall) :=
  match m.lookup tc.index with
  | some e => setSlot m tc.index (updateEntry e tc)
  | none => m ++ [(tc.index, updateEntry (initEntry tc) tc)]

/-- Accumulation of a whole stream's fragments, in delivery order. -/
def processFragments (frs : List ToolCallFragment) : List (Nat × PendingToolCall) :=
  frs.foldl processFragment []

/-- Insertion into a key-sorted association list. -/
def insertSorted (p : Nat × PendingToolCall) :
    List (Nat × PendingToolCall) → List (Nat × PendingToolCall)
  | [] => [p]
  | q :: qs => if p.1 ≤ q.1 then p :: q :: qs else q :: insertSorted p qs

/-- `[tool_call_map[i] for i in sorted(tool_call_map.keys())]` (line 480):
the accumulated entries ordered by slot index. -/
def sortByKey (l : List (Nat × PendingToolCall)) : List (Nat × PendingToolCall) :=
  l.foldr insertSorted []

/-- The truthy name carried by a fragment, if any (what line 476-477 assigns). -/
def fragName (tc : ToolCallFragment) : Option String :=
  match tc.function with
  | some f => if strTruthy f.name then some (f.name.getD "") else none
  | none => none

/-- The arguments text a fragment contributes (what line 478-479 appends). -/
def fragArgs (tc : ToolCallFragment) : String :=
  match tc.function with
  | some f => if strTruthy f.arguments then f.arguments.getD "" else ""
  | none => ""

/-! ## Outward SSE events and JSON payload rendering -/

/-- An outward server-sent event, as handed to `sse_event(event, data)`
(line 195): the event kind and its (possibly JSON-encoded) payload text. -/
structure SSEEvent where
  event : String
  data : String
deriving DecidableEq, Repr

/-- JSON value in a flat payload object: either a string literal to be quoted,
or an already-serialised JSON fragment (the opaque result of a tool runner). -/
inductive JVal where
  | str (s : String)
  | raw (s : String)
deriving DecidableEq, Repr

/-- Escaping of quote and backslash inside a JSON string literal. -/
def jsonEscape (s : String) : String :=
  String.join (s.data.map fun c =>
    if c = '\\' then "\\\\" else if c = '"' then "\\\"" else String.singleton c)

def jvalRender : JVal → String
  | JVal.str s => "\"" ++ jsonEscape s ++ "\""
  | JVal.raw s => s

/-- `json.dumps` of a flat object with the given fields, in insertion order
(Python's default separators). -/
def jsonDumpsObj (kvs : List (String × JVal)) : String :=
  "\x7b" ++ String.intercalate ", " (kvs.map fun kv => "\"" ++ jsonEscape kv.1 ++ "\": " ++ jvalRender kv.2) ++ "\x7d"

/-! ## The streaming orchestrator (`main.py` lines 280-648)

The round loop is embedded as a fuel-indexed recursion (`while tool_iterations
< max_tool_iterations`, with `max_tool_iterations = 3`).  The provider stream,
the tool runners (including `json.loads` of the raw argument text and the
project-key injection) and `_extract_tool_args` (regex match plus JSON parse,
returning a truthy dict or nothing) are oracles carried in `OrchEnv`.  Tokens
are emitted and assistant text is buffered exactly as in lines 454-484; the
history mutations themselves (lines 399/484) are modelled separately by
`historyAppend`. -/

/-- One increment of the provider stream: `delta.content` and
`delta.tool_calls` (lines 454-462). -/
structure StreamDelta where
  content : Option String
  toolCalls : List ToolCallFragment
deriving Repr

/-- External collaborators of one flow. -/
structure OrchEnv where
  /-- deltas of the n-th provider call of this flow (0-based). -/
  provider : Nat → List StreamDelta
  /-- running a tool: argument parsing, project-key injection and the
  `run_*_tool` call, returning the serialised result dict or the message of a
  raised exception. -/
  toolExec : String → String → Except String String
  /-- `_extract_tool_args(text, tool_name)` (lines 128-139): `some` is a
  successful regex match whose payload parsed as a truthy JSON object. -/
  extract : String → String → Option String

/-- `delta.content` when truthy (the `if delta_text:` guard at line 458). -/
def truthyContent (d : StreamDelta) : Option String :=
  match d.content with
  | some s => if s = "" then none else some s
  | none => none

/-- The `token` events emitted while streaming (line 461), in arrival order. -/
def streamTokens (deltas : List StreamDelta) : List SSEEvent :=
  deltas.filterMap fun d => (truthyContent d).map fun s => SSEEvent.mk "token" s

/-- `assistant_text = "".join(assistant_chunks).strip()` (line 482); chunks
are collected only when history tracking is active (lines 459-460), so the
text is empty otherwise. -/
def assistantTextOf (historyActive : Bool) (deltas : List StreamDelta) : String :=
  if historyActive then pyStrip (String.join (deltas.filterMap truthyContent)) else ""

/-- The full accumulation of a stream's tool-call fragments followed by the
index-sorted extraction of line 480. -/
def finalizedToolCalls (deltas : List StreamDelta) : List (Nat × PendingToolCall) :=
  sortByKey (processFragments (deltas.map (fun d => d.toolCalls)).flatten)

/-- `tool_choice` as passed to the provider (lines 447-450). -/
inductive ToolChoice where
  | function (name : String)
  | required
  | auto
deriving DecidableEq, Repr

/-- The tool-related fields of `create_kwargs` (lines 440-450): whether tool
definitions are attached, and which `tool_choice` accompanies them. -/
structure CreateKwargs where
  includeTools : Bool
  toolChoice : Option ToolChoice
deriving DecidableEq, Repr

/-- Lines 438-450: `include_tools = use_tools_this_turn or tool_iterations > 0
or forced_tool_name is not None`; a forced name mandates that function,
otherwise `"required" if use_tools_this_turn else "auto"`. -/
def mkKwargs (useTools : Bool) (toolIterations : Nat) (forced : Option String) : CreateKwargs :=
  let includeTools := useTools || decide (0 < toolIterations) || forced.isSome
  { includeTools := includeTools
    toolChoice :=
      if includeTools then
        some (match forced with
          | some n => ToolChoice.function n
          | none => if useTools then ToolChoice.required else ToolChoice.auto)
      else none }

/-- `allowed_tools` (lines 518-525): allow-listed tool name ↦ outward event
name. -/
def ALLOWED_TOOLS : List (String × String) :=
  [("export_pdf", "pdf_saved"), ("export_docx", "docx_saved"),
   ("generate_image", "image_generated"), ("resize_image", "image_updated"),
   ("crop_image", "image_updated"), ("convert_image", "image_updated")]

def isAllowedName (n : String) : Bool := (ALLOWED_TOOLS.lookup n).isSome

/-- Python `a or b` for strings (empty is falsy). -/
def pyOrStr (a b : String) : String := if a = "" then b else a

/-- Python `a or b` where `a` is an optional string. -/
def pyOrOptStr (a : Option String) (b : String) : String := pyOrStr (a.getD "") b

/-- The success path of the dispatch chain (lines 569-595) for an allowed tool
name: the outward event name, the event payload and `tool_content` fed back to
the model.  Image-family successes are wrapped as
`{"operation": <op>, "result": <result>}`; `tool_content` is always the bare
serialised result. -/
def successEventPayload (toolName result : String) : Option (String × String × String) :=
  if toolName = "export_pdf" then some ("pdf_saved", result, result)
  else if toolName = "export_docx" then some ("docx_saved", result, result)
  else if toolName = "generate_image" then some ("image_generated", result, result)
  else if toolName = "resize_image" then
    some ("image_updated", jsonDumpsObj [("operation", JVal.str "resize"), ("result", JVal.raw result)], result)
  else if toolName = "crop_image" then
    some ("image_updated", jsonDumpsObj [("operation", JVal.str "crop"), ("result", JVal.raw result)], result)
  else if toolName = "convert_image" then
    some ("image_updated", jsonDumpsObj [("operation", JVal.str "convert"), ("result", JVal.raw result)], result)
  else none

/-- The per-call exception handler (lines 597-613): the event is the tool's
designated event name (`allowed_tools.get(tool_name, "error")`), and
image-family failures carry `{"operation": <op>, "error": <msg>}` with
`op = tool_name.replace("_image", "")`; other failures carry
`{"error": <msg>}`. -/
def failurePayload (toolName errMsg : String) : String × String :=
  let eventName := (ALLOWED_TOOLS.lookup toolName).getD "error"
  if eventName = "image_updated" then
    (eventName, jsonDumpsObj [("operation", JVal.str (pyReplace toolName "_image" "")), ("error", JVal.str errMsg)])
  else
    (eventName, jsonDumpsObj [("error", JVal.str errMsg)])

/-- The conversation message objects appended to `pending_messages`. -/
inductive PMsg where
  /-- a plain `{"role": ..., "content": ...}` message. -/
  | chat (role : String) (content : String)
  /-- the synthetic assistant message carrying one tool call
  (lines 535-550 and 615-630). -/
  | assistantToolCall (content : String) (tcId : String) (tcName : String) (tcArgs : String)
  /-- the synthetic `role: "tool"` response message (lines 551-558, 631-638). -/
  | toolResponse (tcId : String) (name : String) (content : String)
deriving DecidableEq, Repr

/-- The assistant-with-tool-call / tool-response pair appended after a
dispatched call (lines 615-638). -/
def appendExchange (pending : List PMsg) (assistantText toolId toolName rawArgs toolContent : String) :
    List PMsg :=
  pending ++
    [PMsg.assistantToolCall assistantText toolId (pyOrStr toolName "tool") rawArgs,
     PMsg.toolResponse toolId (pyOrStr toolName "tool") toolContent]

/-- Execution of the first allowed call of a round (lines 561-638): the
emitted event, the extended pending messages, and the audit record of tool
invocations (name, raw argument text). -/
def runAllowedCall (env : OrchEnv) (assistantText : String) (call : PendingToolCall)
    (pending : List PMsg) : List SSEEvent × List PMsg × List (String × String) :=
  let toolName := call.name
  let toolId := pyOrOptStr call.id (pyOrStr toolName "tool")
  let rawArgs := call.arguments
  let invoked := if isAllowedName toolName then [(toolName, rawArgs)] else []
  let outcome : Except String (String × String × String) :=
    if isAllowedName toolName then
      match env.toolExec toolName rawArgs with
      | Except.ok result =>
          match successEventPayload toolName result with
          | some triple => Except.ok triple
          | none => Except.error "Unsupported tool."
      | Except.error e => Except.error e
    else Except.error "Unsupported tool."
  match outcome with
  | Except.ok (evName, payload, toolContent) =>
      ([SSEEvent.mk evName payload],
       appendExchange pending assistantText toolId toolName rawArgs toolContent,
       invoked)
  | Except.error e =>
      let fp := failurePayload toolName e
      ([SSEEvent.mk fp.1 fp.2],
       appendExchange pending assistantText toolId toolName rawArgs fp.2,
       invoked)

/-- The forced-tool text-recovery path (lines 489-513), entered when the
stream produced no structured calls but a tool was forced and
`_extract_tool_args` succeeded: only `generate_image`, `export_docx` and
`export_pdf` have a branch; any other forced name falls through the `if`
chain and nothing is executed or emitted.  An exception inside a branch
yields a single `error` event (line 513). -/
def recoveryRun (env : OrchEnv) (fname args : String) : List SSEEvent × List (String × String) :=
  if fname = "generate_image" then
    match env.toolExec fname args with
    | Except.ok r => ([SSEEvent.mk "image_generated" r], [(fname, args)])
    | Except.error e => ([SSEEvent.mk "error" e], [(fname, args)])
  else if fname = "export_docx" then
    match env.toolExec fname args with
    | Except.ok r => ([SSEEvent.mk "docx_saved" r], [(fname, args)])
    | Except.error e => ([SSEEvent.mk "error" e], [(fname, args)])
  else if fname = "export_pdf" then
    match env.toolExec fname args with
    | Except.ok r => ([SSEEvent.mk "pdf_saved" r], [(fname, args)])
    | Except.error e => ([SSEEvent.mk "error" e], [(fname, args)])
  else ([], [])

/-- What one round does after its events: stop the loop (a `break`), or
proceed to another round (`continue`) with the extended pending messages. -/
inductive RoundOutcome where
  | stop (events : List SSEEvent) (executed : List (String × String))
  | next (events : List SSEEvent) (executed : List (String × String)) (pending : List PMsg)
deriving Repr

/-- One iteration of the `while` loop (lines 435-639): build `create_kwargs`,
stream, finalize tool calls, then branch on no-calls / all-disallowed /
first-allowed. -/
def roundStep (env : OrchEnv) (useTools : Bool) (forced : Option String) (historyActive : Bool)
    (toolIterations callIdx : Nat) (pending : List PMsg) : CreateKwargs × RoundOutcome :=
  let kwargs := mkKwargs useTools toolIterations forced
  let deltas := env.provider callIdx
  let tokenEvents := streamTokens deltas
  let assistantText := assistantTextOf historyActive deltas
  match finalizedToolCalls deltas with
  | [] =>
      let extra :=
        match forced with
        | some fname =>
            if kwargs.includeTools then
              match env.extract assistantText fname with
              | some args => recoveryRun env fname args
              | none => ([], [])
            else ([], [])
        | none => ([], [])
      (kwargs, RoundOutcome.stop (tokenEvents ++ extra.1) extra.2)
  | firstCall :: restCalls =>
      match (firstCall :: restCalls).filter (fun p => isAllowedName p.2.name) with
      | [] =>
          let first := firstCall.2
          let toolId := pyOrOptStr first.id "unknown_tool"
          let errText := "Tool \x27" ++ first.name ++ "\x27 is not allowed."
          let pending' := pending ++
            [PMsg.assistantToolCall assistantText toolId first.name first.arguments,
             PMsg.toolResponse toolId first.name (jsonDumpsObj [("error", JVal.str errText)])]
          (kwargs, RoundOutcome.next (tokenEvents ++ [SSEEvent.mk "error" errText]) [] pending')
      | ac :: _ =>
          let r := runAllowedCall env assistantText ac.2 pending
          (kwargs, RoundOutcome.next (tokenEvents ++ r.1) r.2.2 r.2.1)

/-- The result of running the round loop: events in emission order, the
`create_kwargs` of each provider call made, the audit of tool invocations, and
the final pending messages. -/
structure OrchResult where
  events : List SSEEvent
  kwargs : List CreateKwargs
  executed : List (String × String)
  pending : List PMsg
deriving Repr

def MAX_TOOL_ITERATIONS : Nat := 3

/-- The `while tool_iterations < max_tool_iterations` loop (lines 435-639),
fuelled by `max_tool_iterations - tool_iterations`: each round either breaks
or increments `tool_iterations` and continues. -/
def orchLoop (env : OrchEnv) (useTools : Bool) (forced : Option String) (historyActive : Bool) :
    Nat → Nat → Nat → List PMsg → OrchResult
  | 0, _, _, pending => ⟨[], [], [], pending⟩
  | fuel + 1, toolIterations, callIdx, pending =>
      match roundStep env useTools forced historyActive toolIterations callIdx pending with
      | (kw, RoundOutcome.stop evs ex) => ⟨evs, [kw], ex, pending⟩
      | (kw, RoundOutcome.next evs ex pending') =>
          let rest := orchLoop env useTools forced historyActive fuel (toolIterations + 1) (callIdx + 1) pending'
          ⟨evs ++ rest.events, kw :: rest.kwargs, ex ++ rest.executed, rest.pending⟩

/-- Every event yielded inside the `try` block of the generator (lines
292-642): the loop's events followed by the optional `sources` event
(lines 641-642; `sources` models the truthiness of `sources_payload` together
with its serialisation).  Nothing before the loop yields. -/
def bodyEvents (env : OrchEnv) (useTools : Bool) (forced : Option String) (historyActive : Bool)
    (sources : Option String) (pending : List PMsg) : List SSEEvent :=
  (orchLoop env useTools forced historyActive MAX_TOOL_ITERATIONS 0 0 pending).events
  ++ (match sources with
      | some s => [SSEEvent.mk "sources" s]
      | none => [])

/-- A completed execution of `generator()` (lines 291-643): the body's events
followed by the unconditional terminal `done`. -/
def generatorEvents (env : OrchEnv) (useTools : Bool) (forced : Option String)
    (historyActive : Bool) (sources : Option String) (pending : List PMsg) : List SSEEvent :=
  bodyEvents env useTools forced historyActive sources pending ++ [SSEEvent.mk "done" ""]

/-- An execution aborted by an exception raised anywhere in the `try` block:
the events already yielded are a prefix (cut at position `k`) of the body's
events, and the handler (lines 644-646) appends `error` then `done`. -/
def generatorEventsAborted (env : OrchEnv) (useTools : Bool) (forced : Option String)
    (historyActive : Bool) (sources : Option String) (pending : List PMsg)
    (k : Nat) (errMsg : String) : List SSEEvent :=
  (bodyEvents env useTools forced historyActive sources pending).take k
  ++ [SSEEvent.mk "error" errMsg, SSEEvent.mk "done" ""]

/-- The missing-credentials short-circuit (lines 283-287). -/
def missingKeyEvents : List SSEEvent :=
  [SSEEvent.mk "error" "Missing OPENAI_API_KEY", SSEEvent.mk "done" ""]

/-! ## Persona & context assembler (`main.py` lines 296-317, 372-411) -/

/-- A retrieved knowledge chunk as consumed by the assembler (the fields of
the RAG collaborator's result used at lines 374-377). -/
structure RetrievedChunk where
  title : String
  chunk_index : Nat
  content : String
deriving DecidableEq, Repr

/-- One formatted context line (line 375):
`f"[Source: {item.title} | chunk {item.chunk_index}] {item.content}"`. -/
def formatChunk (c : RetrievedChunk) : String :=
  "[Source: " ++ c.title ++ " | chunk " ++ toString c.chunk_index ++ "] " ++ c.content

/-- `context_block` (lines 372-378): empty when nothing was retrieved,
otherwise the `CONTEXT:` header plus blank-line-joined formatted chunks. -/
def contextBlock (retrieved : List RetrievedChunk) : String :=
  match retrieved with
  | [] => ""
  | _ => "CONTEXT:\n" ++ String.intercalate "\n\n" (retrieved.map formatChunk)

/-- `rag_system_prompt` (lines 380-386): the persona description (or the
default expert line) followed by the fixed retrieval instructions. -/
def ragSystemPrompt (personaDescription : String) : String :=
  (if personaDescription = "" then "You are a game development expert." else personaDescription)
  ++ " "
  ++ "Use provided context. If context is insufficient, say what is missing instead of inventing. "
  ++ "When using context, prefer citing it. If the answer is not supported by context, "
  ++ "say so and propose what to add to the KB."

/-- `tool_instruction` (lines 387-394), transcribed verbatim. -/
def TOOL_INSTRUCTION : String :=
  "If the user explicitly requests saving or exporting to PDF or DOCX, "
  ++ "produce the full document first with clear Markdown headings (e.g. \x27#\x27, \x27##\x27) and short sections, "
  ++ "then call export_pdf or export_docx with the final content and a sensible title. "
  ++ "If the user did NOT request saving, do NOT call the tool. "
  ++ "If the user asks to generate an image, call generate_image. "
  ++ "If the user asks to resize, crop, or convert an existing image, call the matching tool."

/-- `persona_prompt` (lines 296-317): the persona block when persona text
loaded, always followed by the project-identity note. -/
def personaPrompt (personaText projectName projectKey : String) : String :=
  (if personaText ≠ "" then
    "*** PERSONA ***\nThe agent represent this persona:\n" ++ personaText
   else "")
  ++ "\n*** PROJECT ***\nThe current game project is called "
  ++ projectName
  ++ (if projectKey = "" then "." else ". And the game project key is " ++ projectKey ++ ".")

/-- `system_messages` (lines 404-411): the two fixed prompts, the persona
prompt when truthy, the context block when truthy. -/
def systemMessages (ragPrompt toolInstr personaP contextB : String) : List ChatMessage :=
  [ChatMessage.mk "system" ragPrompt, ChatMessage.mk "system" toolInstr]
  ++ (if personaP ≠ "" then [ChatMessage.mk "system" personaP] else [])
  ++ (if contextB ≠ "" then [ChatMessage.mk "system" contextB] else [])

/-- A message "carries the `CONTEXT:` prefix": its text begins with the
literal `CONTEXT:`. -/
def hasContextPrefix (s : String) : Bool :=
  "CONTEXT:".data.isPrefixOf s.data

/-! ## Auxiliary definitions used by the theorems below -/

/-- Concatenation of a list of strings, in order. -/
def concatStrs : List String → String
  | [] => ""
  | s :: rest => s ++ concatStrs rest

/-- The events of a round, whether it stopped or continued. -/
def RoundOutcome.events : RoundOutcome → List SSEEvent
  | RoundOutcome.stop evs _ => evs
  | RoundOutcome.next evs _ _ => evs

/-- The result event name of the three tools the text-recovery path supports
(lines 493-501). -/
def recoveryEventName (fname : String) : String :=
  if fname = "generate_image" then "image_generated"
  else if fname = "export_docx" then "docx_saved"
  else "pdf_saved"

/-- A degenerate environment: silent provider, failing tools, no extraction. -/
def trivialEnv : OrchEnv :=
  { provider := fun _ => []
    toolExec := fun _ _ => Except.error "boom"
    extract := fun _ _ => none }

/-- A concrete flow for the tool-choice counterexample: the first provider
call answers with a structured `export_pdf` call, the second with plain
text. -/
def envC6 : OrchEnv :=
  { provider := fun idx =>
      if idx = 0 then
        [StreamDelta.mk none
          [ToolCallFragment.mk 0 (some "call_0")
            (some (FunctionFragment.mk (some "export_pdf") (some "\x7b\x7d")))]]
      else [StreamDelta.mk (some "ok") []]
    toolExec := fun _ _ => Except.ok "\x7b\x7d"
    extract := fun _ _ => none }

/-- A concrete flow whose provider requests a tool outside the allow-list. -/
def envC4 : OrchEnv :=
  { provider := fun _ =>
      [StreamDelta.mk none
        [ToolCallFragment.mk 0 (some "call_0")
          (some (FunctionFragment.mk (some "bad_tool") (some "\x7b\x7d")))]]
    toolExec := fun _ _ => Except.ok "\x7b\x7d"
    extract := fun _ _ => none }

/-- A concrete flow whose provider requests an allow-listed tool whose
execution raises. -/
def envAllowed : OrchEnv :=
  { provider := fun _ =>
      [StreamDelta.mk (some "sure")
        [ToolCallFragment.mk 0 (some "call_1")
          (some (FunctionFragment.mk (some "resize_image") (some "\x7b\x7d")))]]
    toolExec := fun _ _ => Except.error "disk full"
    extract := fun _ _ => none }

/-- A concrete flow for the forced-tool recovery counterexample: the provider
returns the forced `resize_image` call as literal text, no structured calls,
and extraction of that text succeeds. -/
def envC9 : OrchEnv :=
  { provider := fun _ =>
      [StreamDelta.mk (some "resize_image(\x7b\"path\": \"a.png\"\x7d)") []]
    toolExec := fun _ _ => Except.ok "\x7b\x7d"
    extract := fun text fname =>
      if fname = "resize_image" && text ≠ "" then some "\x7b\"path\": \"a.png\"\x7d" else none }

/-! ## Helper lemmas -/

theorem historyAppendMany_length :
    ∀ (ms : List ChatMessage) (h : List ChatMessage),
      (historyAppendMany h ms).length = h.length + ms.length := by
  intro ms
  induction ms with
  | nil => intro h; rfl
  | cons m rest ih =>
      intro h
      show (rest.foldl historyAppend (historyAppend h m)).length = _
      rw [show rest.foldl historyAppend (historyAppend h m)
            = historyAppendMany (historyAppend h m) rest from rfl, ih]
      simp [historyAppend]
      omega

theorem updateEntry_id (e : PendingToolCall) (tc : ToolCallFragment)
    (h : strTruthy e.id = true) : (updateEntry e tc).id = e.id := by
  unfold updateEntry
  rw [h]
  simp only [Bool.not_true, Bool.and_false, Bool.false_eq_true, if_false]
  cases tc.function with
  | none => rfl
  | some f =>
      by_cases hn : strTruthy f.name = true <;> by_cases ha : strTruthy f.arguments = true <;>
        simp [hn, ha]

theorem updateEntry_arguments (e : PendingToolCall) (tc : ToolCallFragment) :
    (updateEntry e tc).arguments = e.arguments ++ fragArgs tc := by
  unfold updateEntry fragArgs
  cases tc.function with
  | none =>
      by_cases hid : (strTruthy tc.id && !strTruthy e.id) = true <;> simp [hid]
  | some f =>
      by_cases hid : (strTruthy tc.id && !strTruthy e.id) = true <;>
        by_cases hn : strTruthy f.name = true <;> by_cases ha : strTruthy f.arguments = true <;>
          simp [hid, hn, ha]

theorem updateEntry_name (e : PendingToolCall) (tc : ToolCallFragment) :
    (updateEntry e tc).name = (fragName tc).getD e.name := by
  unfold updateEntry fragName
  cases tc.function with
  | none =>
      by_cases hid : (strTruthy tc.id && !strTruthy e.id) = true <;> simp [hid]
  | some f =>
      by_cases hid : (strTruthy tc.id && !strTruthy e.id) = true <;>
        by_cases hn : strTruthy f.name = true <;> by_cases ha : strTruthy f.arguments = true <;>
          simp [hid, hn, ha]

theorem foldl_updateEntry_id :
    ∀ (frs : List ToolCallFragment) (e : PendingToolCall), strTruthy e.id = true →
      (frs.foldl updateEntry e).id = e.id := by
  intro frs
  induction frs with
  | nil => intro e _; rfl
  | cons tc rest ih =>
      intro e he
      show (rest.foldl updateEntry (updateEntry e tc)).id = e.id
      rw [ih (updateEntry e tc) (by rw [updateEntry_id e tc he]; exact he),
          updateEntry_id e tc he]

theorem foldl_updateEntry_arguments :
    ∀ (frs : List ToolCallFragment) (e : PendingToolCall),
      (frs.foldl updateEntry e).arguments = e.arguments ++ concatStrs (frs.map fragArgs) := by
  intro frs
  induction frs with
  | nil => intro e; simp [concatStrs]
  | cons tc rest ih =>
      intro e
      show (rest.foldl updateEntry (updateEntry e tc)).arguments = _
      rw [ih, updateEntry_arguments]
      show e.arguments ++ fragArgs tc ++ concatStrs (rest.map fragArgs)
            = e.arguments ++ (fragArgs tc ++ concatStrs (rest.map fragArgs))
      rw [String.append_assoc]

theorem foldl_updateEntry_name :
    ∀ (frs : List ToolCallFragment) (e : PendingToolCall),
      (frs.foldl updateEntry e).name = (frs.filterMap fragName).getLastD e.name := by
  intro frs
  induction frs with
  | nil => intro e; rfl
  | cons tc rest ih =>
      intro e
      show (rest.foldl updateEntry (updateEntry e tc)).name = _
      rw [ih, updateEntry_name]
      cases hf : fragName tc with
      | none => rw [List.filterMap_cons, hf]; rfl
      | some n => rw [List.filterMap_cons, hf, List.getLastD_cons]; rfl

theorem foldl_processFragment_single (i : Nat) :
    ∀ (frs : List ToolCallFragment) (e : PendingToolCall), (∀ tc ∈ frs, tc.index = i) →
      frs.foldl processFragment [(i, e)] = [(i, frs.foldl updateEntry e)] := by
  intro frs
  induction frs with
  | nil => intro e _; rfl
  | cons tc rest ih =>
      intro e h
      have hidx : tc.index = i := h tc (List.mem_cons_self tc rest)
      show rest.foldl processFragment (processFragment [(i, e)] tc) = _
      have hstep : processFragment [(i, e)] tc = [(i, updateEntry e tc)] := by
        unfold processFragment
        rw [hidx]
        simp [List.lookup, setSlot]
      rw [hstep, ih (updateEntry e tc) (fun tc2 h2 => h tc2 (List.mem_cons_of_mem tc h2))]
      rfl

/-! ## Claim theorems: heuristics, identity, history, accumulation -/

/-- C7 counterexample: "might need tools" is NOT `true iff the lower-cased
utterance contains one of the fixed trigger phrases": the utterance
`"please draw "` lower-cases to a string containing the trigger phrase
`"draw "`, yet the source function strips the utterance first and returns
`false`. -/
theorem c7_counterexample :
    mightNeedToolsSpec "please draw " = true ∧ userMightNeedTools "please draw " = false := by
  constructor <;> decide

/-- C7 (amended): the trigger and forced-tool functions are deterministic pure
functions of the utterance; "might need tools" is true iff the *trimmed*
lower-cased utterance contains one of the fixed trigger phrases; the forced
tool follows the priority order resize → crop → convert → docx/word → pdf →
image/draw/picture with first match, none when no keyword matches; the three
named examples evaluate as claimed. -/
theorem c7_amended :
    (∀ u : String, userMightNeedTools u =
        TOOL_TRIGGER_PHRASES.any fun phrase => strContains (pyLower (pyStrip u)) phrase)
    ∧ chooseToolName "please resize this image" = some "resize_image"
    ∧ chooseToolName "export this as a word doc" = some "export_docx"
    ∧ chooseToolName "draw me a dragon" = some "generate_image"
    ∧ userMightNeedTools "tell me about level design" = false
    ∧ chooseToolName "tell me about level design" = none
    ∧ (∀ u : String, ¬ u = "" → strContains (pyLower (pyStrip u)) "resize" = true →
        chooseToolName u = some "resize_image")
    ∧ (∀ u : String,
        strContains (pyLower (pyStrip u)) "resize" = false →
        strContains (pyLower (pyStrip u)) "crop" = false →
        strContains (pyLower (pyStrip u)) "convert" = false →
        strContains (pyLower (pyStrip u)) "docx" = false →
        strContains (pyLower (pyStrip u)) "word" = false →
        strContains (pyLower (pyStrip u)) "pdf" = false →
        strContains (pyLower (pyStrip u)) "image" = false →
        strContains (pyLower (pyStrip u)) "draw" = false →
        strContains (pyLower (pyStrip u)) "picture" = false →
        chooseToolName u = none)
    ∧ (∀ u : String,
        (∀ phrase ∈ TOOL_TRIGGER_PHRASES, strContains (pyLower (pyStrip u)) phrase = false) →
        userMightNeedTools u = false) := by
  refine ⟨?_, by decide, by decide, by decide, by decide, by decide, ?_, ?_, ?_⟩
  · intro u
    unfold userMightNeedTools
    split
    · rename_i h
      simp only [Bool.or_eq_true, decide_eq_true_eq] at h
      have hs : pyStrip u = "" := by
        rcases h with h1 | h1
        · rw [h1]; rfl
        · exact h1
      rw [hs]
      decide
    · rfl
  · intro u hu hres
    simp only [chooseToolName, if_neg hu, hres, if_true]
  · intro u h1 h2 h3 h4 h5 h6 h7 h8 h9
    by_cases hu : u = ""
    · simp [chooseToolName, hu]
    · simp only [chooseToolName, if_neg hu, h1, h2, h3, h4, h5, h6, h7, h8, h9]
      simp
  · intro u hall
    have hbody : (TOOL_TRIGGER_PHRASES.any fun phrase => strContains (pyLower (pyStrip u)) phrase) = false := by
      rw [List.any_eq_false]
      intro phrase hp
      rw [hall phrase hp]
      simp
    unfold userMightNeedTools
    split
    · rfl
    · exact hbody

/-- C7 (amended) witness: the priority and no-keyword implications at concrete
inputs. -/
theorem c7_amended_witness :
    chooseToolName "resize it" = some "resize_image" ∧ chooseToolName "hello" = none :=
  ⟨c7_amended.2.2.2.2.2.2.1 "resize it" (by decide) (by decide),
   c7_amended.2.2.2.2.2.2.2.1 "hello" (by decide) (by decide) (by decide) (by decide)
     (by decide) (by decide) (by decide) (by decide) (by decide)⟩

/-- C2 counterexample: the in-memory per-agent history (`AGENT_HISTORIES`
entries, mutated only by `history.append`) is NOT capped: after
`MAX_HISTORY_ITEMS + 1` appends its length exceeds the cap. -/
theorem c2_counterexample :
    MAX_HISTORY_ITEMS <
      (historyAppendMany [] (List.replicate (MAX_HISTORY_ITEMS + 1) (ChatMessage.mk "user" "hi"))).length := by
  rw [historyAppendMany_length]
  simp only [List.length_nil, List.length_replicate]
  decide

/-- C2 (amended): the in-memory per-agent history is unbounded and append-only
(its length after any appends is the old length plus the number of appends;
no eviction ever happens there); the `MAX_HISTORY_ITEMS` cap applies only at
the persistence endpoints: saving keeps the last `MAX_HISTORY_ITEMS` messages
(a suffix, so the oldest are evicted from the front), and reading returns at
most the first `MAX_HISTORY_ITEMS` messages (a prefix). -/
theorem c2_amended :
    (∀ (h ms : List ChatMessage),
        (historyAppendMany h ms).length = h.length + ms.length)
    ∧ (∀ msgs : List ChatMessage,
        (saveHistoryMessages msgs).length = min msgs.length MAX_HISTORY_ITEMS
        ∧ saveHistoryMessages msgs <:+ msgs)
    ∧ (∀ msgs : List ChatMessage,
        (readHistoryMessages msgs).length = min msgs.length MAX_HISTORY_ITEMS
        ∧ readHistoryMessages msgs <+: msgs) := by
  refine ⟨fun h ms => historyAppendMany_length ms h, fun msgs => ⟨?_, ?_⟩, fun msgs => ⟨?_, ?_⟩⟩
  · unfold saveHistoryMessages
    rw [List.length_drop]
    omega
  · exact List.drop_suffix _ _
  · unfold readHistoryMessages
    rw [List.length_take]
    omega
  · exact List.take_prefix _ _

/-- C10: `normalize_agent_id` always lands in the set of exactly three agent
identifiers; any identifier whose cleaned form is not one of the three maps to
`creative_director`, and both the in-memory history key and the on-disk
history path for such an identifier coincide with `creative_director`'s. -/
theorem c10_normalize :
    (∀ a : Option String, normalize_agent_id a ∈ AGENT_IDS)
    ∧ (∀ s : String, cleanAgentId s ∉ AGENT_IDS →
        normalize_agent_id (some s) = "creative_director"
        ∧ historyKey (some s) = historyKey (some "creative_director")
        ∧ get_history_path s = get_history_path "creative_director") := by
  constructor
  · intro a
    cases a with
    | none => decide
    | some s =>
        show (if s = "" then "creative_director"
              else if cleanAgentId s ∈ AGENT_IDS then cleanAgentId s else "creative_director")
            ∈ AGENT_IDS
        split
        · decide
        · split
          · assumption
          · decide
  · intro s hs
    have hnorm : normalize_agent_id (some s) = "creative_director" := by
      by_cases h0 : s = ""
      · simp [normalize_agent_id, h0]
      · simp [normalize_agent_id, h0, hs]
    refine ⟨hnorm, ?_, ?_⟩
    · show normalize_agent_id (some s) = normalize_agent_id (some "creative_director")
      rw [hnorm]
      rfl
    · unfold get_history_path
      rw [hnorm]
      rfl

/-- C10 witness: a concrete unrecognised identifier. -/
theorem c10_normalize_witness :
    cleanAgentId "The Boss" ∉ AGENT_IDS
    ∧ (normalize_agent_id (some "The Boss") = "creative_director"
        ∧ historyKey (some "The Boss") = historyKey (some "creative_director")
        ∧ get_history_path "The Boss" = get_history_path "creative_director") :=
  ⟨by decide, c10_normalize.2 "The Boss" (by decide)⟩

/-- C3 counterexample: the accumulated name IS overwritten by later fragments
sharing the slot: a first fragment sets the slot's name to `"tool_a"`, and a
second fragment carrying `"tool_b"` replaces it. -/
theorem c3_counterexample :
    (processFragments
        [ToolCallFragment.mk 0 none (some (FunctionFragment.mk (some "tool_a") none))]).lookup 0
      = some (PendingToolCall.mk none "tool_a" "")
    ∧ (processFragments
        [ToolCallFragment.mk 0 none (some (FunctionFragment.mk (some "tool_a") none)),
         ToolCallFragment.mk 0 none (some (FunctionFragment.mk (some "tool_b") none))]).lookup 0
      = some (PendingToolCall.mk none "tool_b" "") := by
  constructor <;> rfl

/-- C3 (amended): for fragments sharing one slot index, the id, once truthy,
is never overwritten; the name is overwritten by every later fragment carrying
a non-empty name (it ends as the last such name); the arguments text is the
concatenation of every fragment's arguments in delivery order — in particular
the fragments `{"a"` then `:1}` finalize as `{"a":1}`. -/
theorem c3_amended :
    (∀ (e : PendingToolCall) (frs : List ToolCallFragment), strTruthy e.id = true →
        (frs.foldl updateEntry e).id = e.id)
    ∧ (∀ (e : PendingToolCall) (frs : List ToolCallFragment),
        (frs.foldl updateEntry e).arguments = e.arguments ++ concatStrs (frs.map fragArgs))
    ∧ (∀ (e : PendingToolCall) (frs : List ToolCallFragment),
        (frs.foldl updateEntry e).name = (frs.filterMap fragName).getLastD e.name)
    ∧ (∀ (i : Nat) (f : ToolCallFragment) (frs : List ToolCallFragment),
        (∀ tc ∈ f :: frs, tc.index = i) →
        processFragments (f :: frs) = [(i, frs.foldl updateEntry (updateEntry (initEntry f) f))])
    ∧ processFragments
        [ToolCallFragment.mk 0 (some "call_1") (some (FunctionFragment.mk (some "export_pdf") (some "\x7b\"a\""))),
         ToolCallFragment.mk 0 none (some (FunctionFragment.mk none (some ":1\x7d")))]
      = [(0, PendingToolCall.mk (some "call_1") "export_pdf" "\x7b\"a\":1\x7d")] := by
  refine ⟨fun e frs h => foldl_updateEntry_id frs e h,
          fun e frs => foldl_updateEntry_arguments frs e,
          fun e frs => foldl_updateEntry_name frs e,
          ?_, by rfl⟩
  intro i f frs h
  have hidx : f.index = i := h f (List.mem_cons_self f frs)
  show (f :: frs).foldl processFragment [] = _
  rw [List.foldl_cons]
  have hstep : processFragment [] f = [(i, updateEntry (initEntry f) f)] := by
    unfold processFragment
    rw [hidx]
    rfl
  rw [hstep, foldl_processFragment_single i frs _ (fun tc2 h2 => h tc2 (List.mem_cons_of_mem f h2))]

/-- C3 (amended) witness: id preservation and single-slot collapse at concrete
fragments. -/
theorem c3_amended_witness :
    strTruthy (some "call_9" : Option String) = true
    ∧ (([ToolCallFragment.mk 2 (some "other") none].foldl updateEntry
          (PendingToolCall.mk (some "call_9") "n" "a")).id = some "call_9") := by
  refine ⟨by decide, ?_⟩
  exact c3_amended.1 (PendingToolCall.mk (some "call_9") "n" "a")
    [ToolCallFragment.mk 2 (some "other") none] (by decide)

/-! ## Orchestrator lemmas -/

theorem lookup_allowed_ne_done (n : String) :
    ((ALLOWED_TOOLS.lookup n).getD "error") ≠ "done" := by
  unfold ALLOWED_TOOLS
  simp only [List.lookup]
  repeat' split
  all_goals decide

theorem failurePayload_fst (n m : String) :
    (failurePayload n m).1 = (ALLOWED_TOOLS.lookup n).getD "error" := by
  unfold failurePayload
  by_cases h : ((ALLOWED_TOOLS.lookup n).getD "error") = "image_updated" <;> simp [h]

theorem allowed_cases (n : String) (h : isAllowedName n = true) :
    n = "export_pdf" ∨ n = "export_docx" ∨ n = "generate_image" ∨ n = "resize_image"
    ∨ n = "crop_image" ∨ n = "convert_image" := by
  by_contra hc
  push_neg at hc
  obtain ⟨h1, h2, h3, h4, h5, h6⟩ := hc
  unfold isAllowedName ALLOWED_TOOLS at h
  simp only [List.lookup] at h
  rw [beq_eq_false_iff_ne.mpr h1, beq_eq_false_iff_ne.mpr h2, beq_eq_false_iff_ne.mpr h3,
      beq_eq_false_iff_ne.mpr h4, beq_eq_false_iff_ne.mpr h5, beq_eq_false_iff_ne.mpr h6] at h
  simp at h

theorem successEventPayload_of_allowed (n r : String) (h : isAllowedName n = true) :
    ∃ evp, successEventPayload n r = some evp
      ∧ evp.1 = (ALLOWED_TOOLS.lookup n).getD "error" := by
  rcases allowed_cases n h with h | h | h | h | h | h <;> subst h <;> exact ⟨_, rfl, rfl⟩

theorem runAllowedCall_ok (env : OrchEnv) (t : String) (call : PendingToolCall) (p : List PMsg)
    (result : String) (evp : String × String × String)
    (hA : isAllowedName call.name = true)
    (hexec : env.toolExec call.name call.arguments = Except.ok result)
    (hsp : successEventPayload call.name result = some evp) :
    runAllowedCall env t call p =
      ([SSEEvent.mk evp.1 evp.2.1],
       appendExchange p t (pyOrOptStr call.id (pyOrStr call.name "tool")) call.name call.arguments evp.2.2,
       [(call.name, call.arguments)]) := by
  simp only [runAllowedCall, hA, hexec, hsp, if_true]

theorem runAllowedCall_err (env : OrchEnv) (t : String) (call : PendingToolCall) (p : List PMsg)
    (msg : String)
    (hA : isAllowedName call.name = true)
    (hexec : env.toolExec call.name call.arguments = Except.error msg) :
    runAllowedCall env t call p =
      ([SSEEvent.mk (failurePayload call.name msg).1 (failurePayload call.name msg).2],
       appendExchange p t (pyOrOptStr call.id (pyOrStr call.name "tool")) call.name call.arguments
         (failurePayload call.name msg).2,
       [(call.name, call.arguments)]) := by
  simp only [runAllowedCall, hA, hexec, if_true]

theorem runAllowedCall_invoked (env : OrchEnv) (t : String) (call : PendingToolCall)
    (p : List PMsg) (hA : isAllowedName call.name = true) :
    (runAllowedCall env t call p).2.2 = [(call.name, call.arguments)] := by
  cases hexec : env.toolExec call.name call.arguments with
  | ok result =>
      obtain ⟨evp, hsp, -⟩ := successEventPayload_of_allowed call.name result hA
      rw [runAllowedCall_ok env t call p result evp hA hexec hsp]
  | error msg =>
      rw [runAllowedCall_err env t call p msg hA hexec]

theorem runAllowedCall_event_ne_done (env : OrchEnv) (t : String) (call : PendingToolCall)
    (p : List PMsg) (hA : isAllowedName call.name = true) :
    ∀ e ∈ (runAllowedCall env t call p).1, e.event ≠ "done" := by
  intro e he
  cases hexec : env.toolExec call.name call.arguments with
  | ok result =>
      obtain ⟨evp, hsp, hev⟩ := successEventPayload_of_allowed call.name result hA
      rw [runAllowedCall_ok env t call p result evp hA hexec hsp] at he
      rw [List.mem_singleton] at he
      subst he
      show evp.1 ≠ "done"
      rw [hev]
      exact lookup_allowed_ne_done call.name
  | error msg =>
      rw [runAllowedCall_err env t call p msg hA hexec] at he
      rw [List.mem_singleton] at he
      subst he
      show (failurePayload call.name msg).1 ≠ "done"
      rw [failurePayload_fst]
      exact lookup_allowed_ne_done call.name

theorem streamTokens_event (deltas : List StreamDelta) :
    ∀ e ∈ streamTokens deltas, e.event = "token" := by
  intro e he
  unfold streamTokens at he
  rw [List.mem_filterMap] at he
  obtain ⟨d, -, hd⟩ := he
  cases h : truthyContent d with
  | none => rw [h] at hd; cases hd
  | some s =>
      rw [h] at hd
      simp only [Option.map_some'] at hd
      injection hd with hd
      subst hd
      rfl

theorem recoveryRun_event_ne_done (env : OrchEnv) (fname args : String) :
    ∀ e ∈ (recoveryRun env fname args).1, e.event ≠ "done" := by
  intro e he
  unfold recoveryRun at he
  repeat' split at he
  all_goals
    first
    | (rw [List.mem_singleton] at he; subst he; simp)
    | cases he

theorem mkKwargs_includeTools_forced (u : Bool) (it : Nat) (fname : String) :
    (mkKwargs u it (some fname)).includeTools = true := by
  simp [mkKwargs]

theorem roundStep_stop_noForced (env : OrchEnv) (u : Bool) (hA : Bool) (it idx : Nat)
    (p : List PMsg) (hcalls : finalizedToolCalls (env.provider idx) = []) :
    roundStep env u none hA it idx p =
      (mkKwargs u it none, RoundOutcome.stop (streamTokens (env.provider idx)) []) := by
  simp only [roundStep, hcalls]
  rw [List.append_nil]

theorem roundStep_stop_forced_noExtract (env : OrchEnv) (u : Bool) (hA : Bool) (it idx : Nat)
    (p : List PMsg) (fname : String)
    (hcalls : finalizedToolCalls (env.provider idx) = [])
    (hext : env.extract (assistantTextOf hA (env.provider idx)) fname = none) :
    roundStep env u (some fname) hA it idx p =
      (mkKwargs u it (some fname), RoundOutcome.stop (streamTokens (env.provider idx)) []) := by
  simp only [roundStep, hcalls, mkKwargs_includeTools_forced, if_true, hext]
  rw [List.append_nil]

theorem roundStep_stop_forced_extract (env : OrchEnv) (u : Bool) (hA : Bool) (it idx : Nat)
    (p : List PMsg) (fname args : String)
    (hcalls : finalizedToolCalls (env.provider idx) = [])
    (hext : env.extract (assistantTextOf hA (env.provider idx)) fname = some args) :
    roundStep env u (some fname) hA it idx p =
      (mkKwargs u it (some fname),
       RoundOutcome.stop (streamTokens (env.provider idx) ++ (recoveryRun env fname args).1)
         (recoveryRun env fname args).2) := by
  simp only [roundStep, hcalls, mkKwargs_includeTools_forced, if_true, hext]

theorem roundStep_disallowed (env : OrchEnv) (u : Bool) (f : Option String) (hA : Bool)
    (it idx : Nat) (p : List PMsg) (fc : Nat × PendingToolCall)
    (rest : List (Nat × PendingToolCall))
    (hcalls : finalizedToolCalls (env.provider idx) = fc :: rest)
    (hall : ∀ q ∈ fc :: rest, isAllowedName q.2.name = false) :
    roundStep env u f hA it idx p =
      (mkKwargs u it f,
       RoundOutcome.next
         (streamTokens (env.provider idx)
           ++ [SSEEvent.mk "error" ("Tool \x27" ++ fc.2.name ++ "\x27 is not allowed.")])
         []
         (p ++ [PMsg.assistantToolCall (assistantTextOf hA (env.provider idx))
                  (pyOrOptStr fc.2.id "unknown_tool") fc.2.name fc.2.arguments,
                PMsg.toolResponse (pyOrOptStr fc.2.id "unknown_tool") fc.2.name
                  (jsonDumpsObj
                    [("error", JVal.str ("Tool \x27" ++ fc.2.name ++ "\x27 is not allowed."))])])) := by
  have hfilter : (fc :: rest).filter (fun q => isAllowedName q.2.name) = [] :=
    List.filter_eq_nil_iff.mpr (by intro a ha; rw [hall a ha]; simp)
  simp only [roundStep, hcalls, hfilter]

theorem roundStep_allowed (env : OrchEnv) (u : Bool) (f : Option String) (hA : Bool)
    (it idx : Nat) (p : List PMsg) (fc : Nat × PendingToolCall)
    (rest : List (Nat × PendingToolCall)) (ac : Nat × PendingToolCall)
    (more : List (Nat × PendingToolCall))
    (hcalls : finalizedToolCalls (env.provider idx) = fc :: rest)
    (hfil : (fc :: rest).filter (fun q => isAllowedName q.2.name) = ac :: more) :
    roundStep env u f hA it idx p =
      (mkKwargs u it f,
       RoundOutcome.next
         (streamTokens (env.provider idx)
           ++ (runAllowedCall env (assistantTextOf hA (env.provider idx)) ac.2 p).1)
         (runAllowedCall env (assistantTextOf hA (env.provider idx)) ac.2 p).2.2
         (runAllowedCall env (assistantTextOf hA (env.provider idx)) ac.2 p).2.1) := by
  simp only [roundStep, hcalls, hfil]

theorem roundStep_fst (env : OrchEnv) (u : Bool) (f : Option String) (hA : Bool)
    (it idx : Nat) (p : List PMsg) :
    (roundStep env u f hA it idx p).1 = mkKwargs u it f := by
  simp only [roundStep]
  repeat' split
  all_goals rfl

theorem roundStep_event_ne_done (env : OrchEnv) (u : Bool) (f : Option String) (hA : Bool)
    (it idx : Nat) (p : List PMsg) :
    ∀ e ∈ ((roundStep env u f hA it idx p).2).events, e.event ≠ "done" := by
  intro e he
  have htok := streamTokens_event (env.provider idx)
  cases hcalls : finalizedToolCalls (env.provider idx) with
  | nil =>
      cases f with
      | none =>
          rw [roundStep_stop_noForced env u hA it idx p hcalls] at he
          rw [htok e he]
          decide
      | some fname =>
          cases hext : env.extract (assistantTextOf hA (env.provider idx)) fname with
          | none =>
              rw [roundStep_stop_forced_noExtract env u hA it idx p fname hcalls hext] at he
              rw [htok e he]
              decide
          | some args =>
              rw [roundStep_stop_forced_extract env u hA it idx p fname args hcalls hext] at he
              rcases List.mem_append.mp he with h1 | h1
              · rw [htok e h1]; decide
              · exact recoveryRun_event_ne_done env fname args e h1
  | cons fc rest =>
      cases hfil : (fc :: rest).filter (fun q => isAllowedName q.2.name) with
      | nil =>
          have hall : ∀ q ∈ fc :: rest, isAllowedName q.2.name = false := by
            intro q hq
            have := List.filter_eq_nil_iff.mp hfil q hq
            simpa using this
          rw [roundStep_disallowed env u f hA it idx p fc rest hcalls hall] at he
          rcases List.mem_append.mp he with h1 | h1
          · rw [htok e h1]; decide
          · rw [List.mem_singleton] at h1; subst h1; simp
      | cons ac more =>
          have hmem : ac ∈ (fc :: rest).filter (fun q => isAllowedName q.2.name) := by
            rw [hfil]; exact List.mem_cons_self ac more
          have hAname : isAllowedName ac.2.name = true := (List.mem_filter.mp hmem).2
          rw [roundStep_allowed env u f hA it idx p fc rest ac more hcalls hfil] at he
          rcases List.mem_append.mp he with h1 | h1
          · rw [htok e h1]; decide
          · exact runAllowedCall_event_ne_done env _ ac.2 p hAname e h1

theorem orchLoop_event_ne_done (env : OrchEnv) (u : Bool) (f : Option String) (hA : Bool) :
    ∀ (fuel it idx : Nat) (p : List PMsg),
      ∀ e ∈ (orchLoop env u f hA fuel it idx p).events, e.event ≠ "done" := by
  intro fuel
  induction fuel with
  | zero => intro it idx p e he; cases he
  | succ n ih =>
      intro it idx p e he
      have hstep := roundStep_event_ne_done env u f hA it idx p
      simp only [orchLoop] at he
      split at he
      · rename_i kw evs ex heq
        rw [heq] at hstep
        exact hstep e he
      · rename_i kw evs ex pending heq
        rw [heq] at hstep
        rcases List.mem_append.mp he with h1 | h1
        · exact hstep e h1
        · exact ih (it + 1) (idx + 1) pending e h1

theorem orchLoop_kwargs_length (env : OrchEnv) (u : Bool) (f : Option String) (hA : Bool) :
    ∀ (fuel it idx : Nat) (p : List PMsg),
      (orchLoop env u f hA fuel it idx p).kwargs.length ≤ fuel := by
  intro fuel
  induction fuel with
  | zero => intro it idx p; simp [orchLoop]
  | succ n ih =>
      intro it idx p
      simp only [orchLoop]
      split
      · simp
      · rename_i kw evs ex pending heq
        simp only [List.length_cons]
        exact Nat.succ_le_succ (ih (it + 1) (idx + 1) pending)

theorem orchLoop_kwargs_shape (env : OrchEnv) (u : Bool) (f : Option String) (hA : Bool) :
    ∀ (fuel it idx : Nat) (p : List PMsg),
      (orchLoop env u f hA fuel it idx p).kwargs
        = (List.range (orchLoop env u f hA fuel it idx p).kwargs.length).map
            (fun i => mkKwargs u (it + i) f) := by
  intro fuel
  induction fuel with
  | zero => intro it idx p; rfl
  | succ n ih =>
      intro it idx p
      have hfst := roundStep_fst env u f hA it idx p
      simp only [orchLoop]
      split
      · rename_i kw evs ex heq
        have hkw : kw = mkKwargs u it f := by rw [← hfst, heq]
        subst hkw
        rfl
      · rename_i kw evs ex pending heq
        have hkw : kw = mkKwargs u it f := by rw [← hfst, heq]
        subst hkw
        simp only [List.length_cons]
        rw [List.range_succ_eq_map, List.map_cons, List.map_map]
        congr 1
        rw [ih (it + 1) (idx + 1) pending]
        simp only [List.length_map, List.length_range]
        apply List.map_congr_left
        intro i hi
        show mkKwargs u (it + 1 + i) f = mkKwargs u (it + Nat.succ i) f
        congr 1
        omega

theorem append_pair_assoc (l : List SSEEvent) (a b : SSEEvent) :
    l ++ [a, b] = (l ++ [a]) ++ [b] := by
  rw [List.append_assoc]
  rfl

theorem bodyEvents_ne_done (env : OrchEnv) (u : Bool) (f : Option String) (hA : Bool)
    (sources : Option String) (p : List PMsg) :
    ∀ e ∈ bodyEvents env u f hA sources p, e.event ≠ "done" := by
  intro e he
  unfold bodyEvents at he
  rcases List.mem_append.mp he with h1 | h1
  · exact orchLoop_event_ne_done env u f hA MAX_TOOL_ITERATIONS 0 0 p e h1
  · cases sources with
    | none => cases h1
    | some s =>
        rw [List.mem_singleton] at h1
        subst h1
        simp

theorem countP_done_bodyEvents (env : OrchEnv) (u : Bool) (f : Option String) (hA : Bool)
    (sources : Option String) (p : List PMsg) :
    (bodyEvents env u f hA sources p).countP (fun e => e.event == "done") = 0 :=
  List.countP_eq_zero.mpr (fun a ha => by
    simp only [beq_iff_eq]
    exact bodyEvents_ne_done env u f hA sources p a ha)

theorem orchLoop_next_eq (env : OrchEnv) (u : Bool) (f : Option String) (hA : Bool)
    (fuel it idx : Nat) (p : List PMsg) (kw : CreateKwargs) (evs : List SSEEvent)
    (ex : List (String × String)) (pending : List PMsg)
    (heq : roundStep env u f hA it idx p = (kw, RoundOutcome.next evs ex pending)) :
    orchLoop env u f hA (fuel + 1) it idx p =
      OrchResult.mk
        (evs ++ (orchLoop env u f hA fuel (it + 1) (idx + 1) pending).events)
        (kw :: (orchLoop env u f hA fuel (it + 1) (idx + 1) pending).kwargs)
        (ex ++ (orchLoop env u f hA fuel (it + 1) (idx + 1) pending).executed)
        (orchLoop env u f hA fuel (it + 1) (idx + 1) pending).pending := by
  simp only [orchLoop, heq]

/-! ## Claim theorems: the orchestrator -/

/-- C1: for every flow — completed, aborted by an exception at any point, or
short-circuited on missing credentials — the outward event sequence contains
exactly one `done` event and it is the last event emitted. -/
theorem c1_done_exactly_once_and_last (env : OrchEnv) (u : Bool) (f : Option String) (hA : Bool)
    (sources : Option String) (p : List PMsg) (k : Nat) (errMsg : String) :
    ((generatorEvents env u f hA sources p).countP (fun e => e.event == "done") = 1
      ∧ (generatorEvents env u f hA sources p).getLast? = some (SSEEvent.mk "done" ""))
    ∧ ((generatorEventsAborted env u f hA sources p k errMsg).countP (fun e => e.event == "done") = 1
      ∧ (generatorEventsAborted env u f hA sources p k errMsg).getLast?
          = some (SSEEvent.mk "done" ""))
    ∧ (missingKeyEvents.countP (fun e => e.event == "done") = 1
      ∧ missingKeyEvents.getLast? = some (SSEEvent.mk "done" "")) := by
  have h0 := countP_done_bodyEvents env u f hA sources p
  have htake : ((bodyEvents env u f hA sources p).take k).countP (fun e => e.event == "done") = 0 :=
    List.countP_eq_zero.mpr (fun a ha => by
      simp only [beq_iff_eq]
      exact bodyEvents_ne_done env u f hA sources p a (List.take_subset k _ ha))
  refine ⟨⟨?_, ?_⟩, ⟨?_, ?_⟩, ?_, ?_⟩
  · unfold generatorEvents
    rw [List.countP_append, h0]
    rfl
  · exact List.getLast?_concat _
  · unfold generatorEventsAborted
    rw [List.countP_append, htake]
    rfl
  · unfold generatorEventsAborted
    rw [append_pair_assoc]
    exact List.getLast?_concat _
  · rfl
  · rfl

/-- C4: in a round where tool calls accumulated but none is allow-listed, the
orchestrator emits one `error` event naming the first (disallowed) tool,
executes nothing, appends the synthetic assistant-with-tool-call plus
tool-response-with-error-payload pair, and proceeds to another round; when at
least one call is allowed only the first allowed call is executed that round;
the loop makes at most `max_tool_iterations` provider calls. -/
theorem c4_disallowed_tool_round :
    (∀ (env : OrchEnv) (u : Bool) (f : Option String) (hA : Bool) (it idx : Nat) (p : List PMsg)
        (fc : Nat × PendingToolCall) (rest : List (Nat × PendingToolCall)),
        finalizedToolCalls (env.provider idx) = fc :: rest →
        (∀ q ∈ fc :: rest, isAllowedName q.2.name = false) →
        roundStep env u f hA it idx p =
          (mkKwargs u it f,
           RoundOutcome.next
             (streamTokens (env.provider idx)
               ++ [SSEEvent.mk "error" ("Tool \x27" ++ fc.2.name ++ "\x27 is not allowed.")])
             []
             (p ++ [PMsg.assistantToolCall (assistantTextOf hA (env.provider idx))
                      (pyOrOptStr fc.2.id "unknown_tool") fc.2.name fc.2.arguments,
                    PMsg.toolResponse (pyOrOptStr fc.2.id "unknown_tool") fc.2.name
                      (jsonDumpsObj
                        [("error",
                          JVal.str ("Tool \x27" ++ fc.2.name ++ "\x27 is not allowed."))])])))
    ∧ (∀ (env : OrchEnv) (u : Bool) (f : Option String) (hA : Bool) (it idx : Nat) (p : List PMsg)
        (fc ac : Nat × PendingToolCall) (rest more : List (Nat × PendingToolCall)),
        finalizedToolCalls (env.provider idx) = fc :: rest →
        (fc :: rest).filter (fun q => isAllowedName q.2.name) = ac :: more →
        (roundStep env u f hA it idx p).2 =
          RoundOutcome.next
            (streamTokens (env.provider idx)
              ++ (runAllowedCall env (assistantTextOf hA (env.provider idx)) ac.2 p).1)
            [(ac.2.name, ac.2.arguments)]
            (runAllowedCall env (assistantTextOf hA (env.provider idx)) ac.2 p).2.1)
    ∧ (∀ (env : OrchEnv) (u : Bool) (f : Option String) (hA : Bool) (p : List PMsg),
        (orchLoop env u f hA MAX_TOOL_ITERATIONS 0 0 p).kwargs.length ≤ MAX_TOOL_ITERATIONS)
    ∧ (∀ (env : OrchEnv) (u : Bool) (f : Option String) (hA : Bool) (fuel it idx : Nat)
        (p : List PMsg) (kw : CreateKwargs) (evs : List SSEEvent) (ex : List (String × String))
        (pending : List PMsg),
        roundStep env u f hA it idx p = (kw, RoundOutcome.next evs ex pending) →
        (orchLoop env u f hA (fuel + 1) it idx p).events
          = evs ++ (orchLoop env u f hA fuel (it + 1) (idx + 1) pending).events) := by
  refine ⟨roundStep_disallowed, ?_, ?_, ?_⟩
  · intro env u f hA it idx p fc ac rest more hcalls hfil
    have hmem : ac ∈ (fc :: rest).filter (fun q => isAllowedName q.2.name) := by
      rw [hfil]; exact List.mem_cons_self ac more
    have hAname : isAllowedName ac.2.name = true := (List.mem_filter.mp hmem).2
    rw [roundStep_allowed env u f hA it idx p fc rest ac more hcalls hfil]
    show RoundOutcome.next _ (runAllowedCall env _ ac.2 p).2.2 _ = _
    rw [runAllowedCall_invoked env _ ac.2 p hAname]
  · intro env u f hA p
    exact orchLoop_kwargs_length env u f hA MAX_TOOL_ITERATIONS 0 0 p
  · intro env u f hA fuel it idx p kw evs ex pending heq
    rw [orchLoop_next_eq env u f hA fuel it idx p kw evs ex pending heq]

/-- C4 witness: both branches at concrete flows — a disallowed `bad_tool`
round and an allowed `resize_image` round. -/
theorem c4_disallowed_tool_round_witness :
    (roundStep envC4 true none true 0 0 [] =
      (mkKwargs true 0 none,
       RoundOutcome.next
         (streamTokens (envC4.provider 0)
           ++ [SSEEvent.mk "error" ("Tool \x27" ++ "bad_tool" ++ "\x27 is not allowed.")])
         []
         ([] ++ [PMsg.assistantToolCall (assistantTextOf true (envC4.provider 0))
                  (pyOrOptStr (some "call_0") "unknown_tool") "bad_tool" "\x7b\x7d",
                PMsg.toolResponse (pyOrOptStr (some "call_0") "unknown_tool") "bad_tool"
                  (jsonDumpsObj
                    [("error", JVal.str ("Tool \x27" ++ "bad_tool" ++ "\x27 is not allowed."))])])))
    ∧ ((roundStep envAllowed true none true 0 0 []).2 =
        RoundOutcome.next
          (streamTokens (envAllowed.provider 0)
            ++ (runAllowedCall envAllowed (assistantTextOf true (envAllowed.provider 0))
                  (PendingToolCall.mk (some "call_1") "resize_image" "\x7b\x7d") []).1)
          [("resize_image", "\x7b\x7d")]
          (runAllowedCall envAllowed (assistantTextOf true (envAllowed.provider 0))
            (PendingToolCall.mk (some "call_1") "resize_image" "\x7b\x7d") []).2.1) :=
  ⟨c4_disallowed_tool_round.1 envC4 true none true 0 0 []
      (0, PendingToolCall.mk (some "call_0") "bad_tool" "\x7b\x7d") [] (by rfl) (by decide),
   c4_disallowed_tool_round.2.1 envAllowed true none true 0 0 []
      (0, PendingToolCall.mk (some "call_1") "resize_image" "\x7b\x7d")
      (0, PendingToolCall.mk (some "call_1") "resize_image" "\x7b\x7d") [] [] (by rfl) (by rfl)⟩

/-- C5: an allowed tool whose execution raises is caught per call: exactly one
event is emitted for that tool under its designated event name, its JSON error
payload is fed back as the tool's own response content, image-family failures
carry `{"operation": <op>, "error": <msg>}`, the round outcome still proceeds
to later rounds, and the flow's terminal `done` is emitted regardless. -/
theorem c5_tool_exception_contained :
    (∀ (env : OrchEnv) (t : String) (call : PendingToolCall) (p : List PMsg) (msg : String),
        isAllowedName call.name = true →
        env.toolExec call.name call.arguments = Except.error msg →
        runAllowedCall env t call p =
          ([SSEEvent.mk ((ALLOWED_TOOLS.lookup call.name).getD "error")
              (failurePayload call.name msg).2],
           appendExchange p t (pyOrOptStr call.id (pyOrStr call.name "tool")) call.name
             call.arguments (failurePayload call.name msg).2,
           [(call.name, call.arguments)]))
    ∧ (∀ n msg : String, n = "resize_image" ∨ n = "crop_image" ∨ n = "convert_image" →
        failurePayload n msg =
          ("image_updated",
           jsonDumpsObj [("operation", JVal.str (pyReplace n "_image" "")),
                         ("error", JVal.str msg)]))
    ∧ (∀ n msg : String, n = "export_pdf" ∨ n = "export_docx" ∨ n = "generate_image" →
        (failurePayload n msg).2 = jsonDumpsObj [("error", JVal.str msg)])
    ∧ (∀ (env : OrchEnv) (u : Bool) (f : Option String) (hA : Bool) (it idx : Nat)
        (p : List PMsg) (fc ac : Nat × PendingToolCall)
        (rest more : List (Nat × PendingToolCall)),
        finalizedToolCalls (env.provider idx) = fc :: rest →
        (fc :: rest).filter (fun q => isAllowedName q.2.name) = ac :: more →
        ∃ evs ex pend, (roundStep env u f hA it idx p).2 = RoundOutcome.next evs ex pend)
    ∧ (∀ (env : OrchEnv) (u : Bool) (f : Option String) (hA : Bool)
        (sources : Option String) (p : List PMsg),
        (generatorEvents env u f hA sources p).getLast? = some (SSEEvent.mk "done" "")) := by
  refine ⟨?_, ?_, ?_, ?_, ?_⟩
  · intro env t call p msg hA hexec
    rw [runAllowedCall_err env t call p msg hA hexec, failurePayload_fst]
  · intro n msg h
    rcases h with h | h | h <;> subst h <;> rfl
  · intro n msg h
    rcases h with h | h | h <;> subst h <;> rfl
  · intro env u f hA it idx p fc ac rest more hcalls hfil
    exact ⟨_, _, _, by rw [roundStep_allowed env u f hA it idx p fc rest ac more hcalls hfil]⟩
  · intro env u f hA sources p
    exact List.getLast?_concat _

/-- C5 witness: a concrete allowed `resize_image` call whose executor raises
`"disk full"`. -/
theorem c5_tool_exception_contained_witness :
    runAllowedCall envAllowed "sure" (PendingToolCall.mk (some "call_1") "resize_image" "\x7b\x7d") [] =
      ([SSEEvent.mk ((ALLOWED_TOOLS.lookup "resize_image").getD "error")
          (failurePayload "resize_image" "disk full").2],
       appendExchange [] "sure" (pyOrOptStr (some "call_1") (pyOrStr "resize_image" "tool"))
         "resize_image" "\x7b\x7d" (failurePayload "resize_image" "disk full").2,
       [("resize_image", "\x7b\x7d")]) :=
  c5_tool_exception_contained.1 envAllowed "sure"
    (PendingToolCall.mk (some "call_1") "resize_image" "\x7b\x7d") [] "disk full"
    (by decide) (by rfl)

/-- C6 counterexample: tool usage is NOT made mandatory "for that round only":
in a flow whose trigger fired and where no tool was forced, the second round's
`tool_choice` is still `"required"`, not `"auto"`. -/
theorem c6_counterexample :
    (orchLoop envC6 true none true MAX_TOOL_ITERATIONS 0 0 []).kwargs.map
        (fun kw => kw.toolChoice)
      = [some ToolChoice.required, some ToolChoice.required] := by
  rfl

/-- C6 (amended): tool definitions are presented iff the trigger fired, or a
tool was forced, or the round is not the first; a forced tool mandates that
function; otherwise, when the trigger fired, tool usage is mandatory in that
round AND in every later round of the turn (the flag is never reset);
otherwise tool usage is optional (`auto`) whenever tools are presented; and
every provider call of the loop uses exactly these kwargs for its round
index. -/
theorem c6_amended :
    (∀ (u : Bool) (it : Nat) (f : Option String),
        (mkKwargs u it f).includeTools = (u || decide (0 < it) || f.isSome))
    ∧ (∀ (u : Bool) (it : Nat) (n : String),
        (mkKwargs u it (some n)).toolChoice = some (ToolChoice.function n))
    ∧ (∀ it : Nat, (mkKwargs true it none).toolChoice = some ToolChoice.required)
    ∧ (∀ it : Nat, 0 < it → (mkKwargs false it none).toolChoice = some ToolChoice.auto)
    ∧ mkKwargs false 0 none = CreateKwargs.mk false none
    ∧ (∀ (env : OrchEnv) (u : Bool) (f : Option String) (hA : Bool) (p : List PMsg),
        (orchLoop env u f hA MAX_TOOL_ITERATIONS 0 0 p).kwargs
          = (List.range (orchLoop env u f hA MAX_TOOL_ITERATIONS 0 0 p).kwargs.length).map
              (fun i => mkKwargs u i f)) := by
  refine ⟨fun u it f => rfl, ?_, ?_, ?_, rfl, ?_⟩
  · intro u it n
    simp [mkKwargs]
  · intro it
    simp [mkKwargs]
  · intro it h
    simp [mkKwargs, h]
  · intro env u f hA p
    rw [orchLoop_kwargs_shape env u f hA MAX_TOOL_ITERATIONS 0 0 p]
    simp only [List.length_map, List.length_range]
    apply List.map_congr_left
    intro i hi
    show mkKwargs u (0 + i) f = mkKwargs u i f
    congr 1
    omega

/-- C6 (amended) witness: the auto case at a concrete later round. -/
theorem c6_amended_witness :
    (0 : Nat) < 1 ∧ (mkKwargs false 1 none).toolChoice = some ToolChoice.auto :=
  ⟨by decide, c6_amended.2.2.2.1 1 (by decide)⟩

/-- C9 counterexample: with forced tool `resize_image`, no structured calls and
a successful pattern extraction from the assistant text, the orchestrator does
NOT execute the tool and emits no result event: the round's only events are
the tokens, and the executed-tools audit is empty. -/
theorem c9_counterexample :
    envC9.extract (assistantTextOf true (envC9.provider 0)) "resize_image"
        = some "\x7b\"path\": \"a.png\"\x7d"
    ∧ (orchLoop envC9 true (some "resize_image") true MAX_TOOL_ITERATIONS 0 0 []).executed = []
    ∧ (orchLoop envC9 true (some "resize_image") true MAX_TOOL_ITERATIONS 0 0 []).events
        = [SSEEvent.mk "token" "resize_image(\x7b\"path\": \"a.png\"\x7d)"] := by
  refine ⟨rfl, rfl, rfl⟩

/-- C9 (amended): when a tool was forced, the stream ends with no structured
calls and extraction succeeds, the round stops the loop with the recovery
path's events and executions; the recovery path executes the tool exactly once
and emits its result event (or a single `error` event on exception) only for
`generate_image`, `export_docx` and `export_pdf`; for the three image-editing
tools it executes nothing and emits nothing. -/
theorem c9_forced_text_recovery :
    (∀ (env : OrchEnv) (u : Bool) (hA : Bool) (it idx : Nat) (p : List PMsg)
        (fname args : String),
        finalizedToolCalls (env.provider idx) = [] →
        env.extract (assistantTextOf hA (env.provider idx)) fname = some args →
        roundStep env u (some fname) hA it idx p =
          (mkKwargs u it (some fname),
           RoundOutcome.stop (streamTokens (env.provider idx) ++ (recoveryRun env fname args).1)
             (recoveryRun env fname args).2))
    ∧ (∀ (env : OrchEnv) (args r fname : String),
        fname = "generate_image" ∨ fname = "export_docx" ∨ fname = "export_pdf" →
        (env.toolExec fname args = Except.ok r →
          recoveryRun env fname args = ([SSEEvent.mk (recoveryEventName fname) r], [(fname, args)]))
        ∧ (∀ msg : String, env.toolExec fname args = Except.error msg →
          recoveryRun env fname args = ([SSEEvent.mk "error" msg], [(fname, args)])))
    ∧ (∀ (env : OrchEnv) (args fname : String),
        fname = "resize_image" ∨ fname = "crop_image" ∨ fname = "convert_image" →
        recoveryRun env fname args = ([], [])) := by
  refine ⟨roundStep_stop_forced_extract, ?_, ?_⟩
  · intro env args r fname h
    rcases h with h | h | h <;> subst h <;>
      exact ⟨fun hexec => by simp [recoveryRun, recoveryEventName, hexec],
             fun msg hexec => by simp [recoveryRun, hexec]⟩
  · intro env args fname h
    rcases h with h | h | h <;> subst h <;> rfl

/-- C9 (amended) witness: the recovery branch at the concrete `envC9` flow and
the no-op recovery for `crop_image`. -/
theorem c9_forced_text_recovery_witness :
    (roundStep envC9 true (some "resize_image") true 0 0 [] =
      (mkKwargs true 0 (some "resize_image"),
       RoundOutcome.stop
         (streamTokens (envC9.provider 0)
           ++ (recoveryRun envC9 "resize_image" "\x7b\"path\": \"a.png\"\x7d").1)
         (recoveryRun envC9 "resize_image" "\x7b\"path\": \"a.png\"\x7d").2))
    ∧ recoveryRun trivialEnv "crop_image" "\x7b\x7d" = ([], []) :=
  ⟨c9_forced_text_recovery.1 envC9 true true 0 0 [] "resize_image"
      "\x7b\"path\": \"a.png\"\x7d" (by rfl) (by rfl),
   c9_forced_text_recovery.2.2 trivialEnv "\x7b\x7d" "crop_image" (Or.inr (Or.inl rfl))⟩

/-! ## Context-assembly lemmas and claim C8 -/

theorem isPrefixOf_append_self (l t : List Char) : l.isPrefixOf (l ++ t) = true := by
  induction l with
  | nil => cases t with
      | nil => rfl
      | cons b bs => rfl
  | cons c cs ih => simp [List.isPrefixOf, ih]

theorem hasContextPrefix_data_cons (c : Char) (cs : List Char) (hc : ('C' == c) = false)
    (s : String) (hd : s.data = c :: cs) : hasContextPrefix s = false := by
  unfold hasContextPrefix
  rw [hd, show "CONTEXT:".data = 'C' :: "ONTEXT:".data from rfl]
  simp [List.isPrefixOf, hc]

theorem hasContextPrefix_context (s : String) :
    hasContextPrefix ("CONTEXT:\n" ++ s) = true := by
  unfold hasContextPrefix
  rw [String.data_append, show "CONTEXT:\n".data = "CONTEXT:".data ++ ['\n'] from by decide,
      List.append_assoc]
  exact isPrefixOf_append_self _ _

theorem personaPrompt_no_context (t pn pk : String) :
    hasContextPrefix (personaPrompt t pn pk) = false := by
  unfold personaPrompt
  by_cases ht : t ≠ ""
  · rw [if_pos ht]
    exact hasContextPrefix_data_cons '*' _ (by decide) _ rfl
  · rw [if_neg ht]
    exact hasContextPrefix_data_cons '\x0a' _ (by decide) _ rfl

theorem contextBlock_ne_empty (a : RetrievedChunk) (l : List RetrievedChunk) :
    contextBlock (a :: l) ≠ "" := by
  intro h
  have hdata : (contextBlock (a :: l)).data = [] := by rw [h]
  rw [show contextBlock (a :: l)
        = "CONTEXT:\n" ++ String.intercalate "\n\n" ((a :: l).map formatChunk) from rfl,
      String.data_append] at hdata
  rcases List.append_eq_nil.mp hdata with ⟨h1, -⟩
  exact absurd h1 (by decide)

/-- C8: the assembled system messages contain a message carrying the
`CONTEXT:` prefix iff the retrieved-chunk list is non-empty, and when present
that message is exactly the `CONTEXT:` header followed by one
`[Source: {title} | chunk {index}] {text}` line per chunk in order, joined by
blank lines.  (The persona description is constrained not to begin with
`CONTEXT:` itself, as none of the repository's personas do.) -/
theorem c8_context_assembly (d t pn pk : String) (retrieved : List RetrievedChunk)
    (hd : hasContextPrefix (ragSystemPrompt d) = false) :
    ((systemMessages (ragSystemPrompt d) TOOL_INSTRUCTION (personaPrompt t pn pk)
        (contextBlock retrieved)).any (fun m => hasContextPrefix m.content))
      = !retrieved.isEmpty
    ∧ (retrieved ≠ [] →
        ChatMessage.mk "system"
            ("CONTEXT:\n" ++ String.intercalate "\n\n" (retrieved.map (fun c =>
              "[Source: " ++ c.title ++ " | chunk " ++ toString c.chunk_index ++ "] "
                ++ c.content)))
          ∈ systemMessages (ragSystemPrompt d) TOOL_INSTRUCTION (personaPrompt t pn pk)
              (contextBlock retrieved)) := by
  have hT : hasContextPrefix TOOL_INSTRUCTION = false :=
    hasContextPrefix_data_cons 'I' _ (by decide) _ rfl
  have hP := personaPrompt_no_context t pn pk
  constructor
  · cases retrieved with
    | nil =>
        unfold systemMessages
        split <;> split <;> simp_all [contextBlock, hd, hT, hP]
    | cons a l =>
        have hctx : hasContextPrefix (contextBlock (a :: l)) = true :=
          hasContextPrefix_context (String.intercalate "\n\n" ((a :: l).map formatChunk))
        unfold systemMessages
        split <;> split <;> simp_all [hd, hT, hP, hctx, contextBlock_ne_empty a l]
  · intro hne
    cases retrieved with
    | nil => exact absurd rfl hne
    | cons a l =>
        have hcb : contextBlock (a :: l) ≠ "" := contextBlock_ne_empty a l
        unfold systemMessages
        apply List.mem_append_right
        rw [if_pos hcb]
        exact List.mem_singleton.mpr rfl

/-- C8 witness: one retrieved chunk, empty persona description. -/
theorem c8_context_assembly_witness :
    ((systemMessages (ragSystemPrompt "") TOOL_INSTRUCTION (personaPrompt "p" "G" "")
        (contextBlock [RetrievedChunk.mk "T" 0 "body"])).any
          (fun m => hasContextPrefix m.content)) = true
    ∧ ChatMessage.mk "system" "CONTEXT:\n[Source: T | chunk 0] body"
        ∈ systemMessages (ragSystemPrompt "") TOOL_INSTRUCTION (personaPrompt "p" "G" "")
            (contextBlock [RetrievedChunk.mk "T" 0 "body"]) := by
  have h := c8_context_assembly "" "p" "G" "" [RetrievedChunk.mk "T" 0 "body"] (by decide)
  exact ⟨h.1, h.2 (by decide)⟩

end GamedevKing
